import Mathlib

/-!
Shallow embedding of the contentful-asset-replacer repository
(`main.go`, `contentful/asset.go`, `contentful/entry.go`) and proofs about
the per-row replacement pipeline.

Modelling conventions:
* JSON response bodies are modelled by the inductive `Json`; the backend and
  the network are an oracle (`RowOracle`) supplying one `HttpResult` per HTTP
  call the row makes.  A `RowOracle` is an arbitrary input, so theorems
  quantified over it cover every possible backend behaviour.
* Go's `encoding/json` decoding into the response structs is modelled by
  `checkJson` driven by a `Schema` translated field-by-field from the Go
  struct tags.  Incoming keys are matched to struct fields the way
  `encoding/json` matches them: an exact tag match is preferred, otherwise
  the first case-insensitively matching field is used.  `strict = true`
  models `dec.DisallowUnknownFields()`, which errors only for keys that
  match no field even after case folding.
  Decoding of `time.Time` values is abstracted: any JSON string is accepted
  where Go would parse an RFC3339 string (no claim depends on time parsing).
* Local filesystem operations (`os.MkdirAll`, `os.Create`, `io.Copy`,
  `os.Open`) are assumed to succeed; the spec declares local file I/O out of
  scope and no claim depends on a filesystem failure.
* Machine integers (`sys.version`, HTTP status codes) stay far below any
  overflow boundary in this program, so they are modelled as `Int`/`Nat`.
-/

/-- A JSON value (bodies of HTTP responses). Numbers are modelled as `Int`:
the program only reads integer version counters. -/
inductive Json where
  | null
  | str (s : String)
  | num (n : Int)
  | boolean (b : Bool)
  | arr (xs : List Json)
  | obj (kvs : List (String × Json))

/-! ## Go string / path helpers (strings, path/filepath)

These are written over `String.data` character lists (rather than the
byte-position based core `String` functions) so that every definition
reduces inside the kernel and concrete runs can be settled by `decide`. -/

/-- Go `strings.HasPrefix`. -/
def strStarts (s p : String) : Bool := p.data.isPrefixOf s.data

/-- Go `strings.HasSuffix`. -/
def strEnds (s suffix : String) : Bool := suffix.data.isSuffixOf s.data

/-- Drop the first `n` characters (Go slicing `s[n:]` for ASCII). -/
def strDrop (s : String) (n : Nat) : String := String.mk (s.data.drop n)

/-- Drop the last `n` characters. -/
def strDropRight (s : String) (n : Nat) : String :=
  String.mk (s.data.take (s.data.length - n))

/-- Go `strings.ToLower`, restricted to ASCII folding (all scheme and header
literals the program compares are ASCII). -/
def strToLower (s : String) : String := String.mk (s.data.map Char.toLower)

/-- Go `strings.TrimSpace` (whitespace at both ends). -/
def strTrim (s : String) : String :=
  String.mk (((s.data.dropWhile Char.isWhitespace).reverse.dropWhile
    Char.isWhitespace).reverse)

/-- Go `strings.TrimSuffix`. -/
def goTrimSuffix (s suffix : String) : String :=
  if strEnds s suffix then strDropRight s suffix.data.length else s

/-- Go `strings.TrimPrefix` (drops the leading occurrence when present). -/
def goTrimPre (s p : String) : String :=
  if strStarts s p then strDrop s p.data.length else s

/-- One character of Go's case folding (`strings.EqualFold` and the
`encoding/json` field-name folding): ASCII case folding, extended with the
only two non-ASCII runes whose Unicode fold sets contain an ASCII letter —
the long s `ſ` (U+017F, folds with `s`) and the Kelvin sign `K` (U+212A,
folds with `k`).  Every string the program fold-compares against is plain
ASCII, and an ASCII letter's fold set contains no other non-ASCII rune, so
this folding agrees with Go's on every comparison the program makes. -/
def foldChar (c : Char) : Char :=
  if c = 'ſ' then 's' else if c = 'K' then 'k' else c.toLower

/-- Go `strings.EqualFold` / the `encoding/json` field-name fold equality
(see `foldChar` for the folding and its scope). -/
def eqFold (a b : String) : Bool :=
  a.data.map foldChar == b.data.map foldChar

/-- Helper for `filepathExt`: scan the reversed character list for the last
dot of the final path element, mirroring Go's backwards loop that stops at a
path separator. -/
def extRevAux (acc : List Char) : List Char → Option (List Char)
  | [] => none
  | c :: rest =>
    if c = '/' then none
    else if c = '.' then some (c :: acc)
    else extRevAux (c :: acc) rest

/-- Go `path/filepath.Ext`: the suffix beginning at the final dot in the
final path element; empty if there is no dot. -/
def filepathExt (p : String) : String :=
  match extRevAux [] p.data.reverse with
  | some l => String.mk l
  | none => ""

/-- Go `path/filepath.Base` (for slash-separated paths as used here):
last element after stripping trailing slashes; `"."` for the empty path,
`"/"` when the path is all slashes. -/
def filepathBase (p : String) : String :=
  if p = "" then "."
  else
    let rev := p.data.reverse.dropWhile (fun c => c == '/')
    if rev = [] then "/"
    else String.mk (rev.takeWhile (fun c => c != '/')).reverse

/-- Models Go `t.Format "20060102_150405"` applied to a `time.Time` that was
decoded from an RFC3339 string: keep the first 19 characters
(`YYYY-MM-DDTHH:MM:SS`), drop the dashes and colons, turn `T` into `_`.
Time parsing itself is abstracted (no claim depends on it). -/
def formatCompactTimestamp (rfc : String) : String :=
  String.mk (((rfc.data.take 19).filter (fun c => c != '-' && c != ':')).map
    (fun c => if c = 'T' then '_' else c))

/-- Everything in `s` before the first occurrence of `c`. -/
def cutAtChar (s : String) (c : Char) : String :=
  String.mk (s.data.takeWhile (fun x => x != c))

/-- Approximates `url.Parse(u).Path` for the absolute http(s) URLs this
program passes in: the part after the host, cut before query and fragment. -/
def urlPathOf (u : String) : String :=
  let lower := strToLower u
  let afterScheme :=
    if strStarts lower "https://" then strDrop u 8
    else if strStarts lower "http://" then strDrop u 7
    else u
  cutAtChar (cutAtChar (String.mk (afterScheme.data.dropWhile (fun c => c != '/'))) '?') '#'


mutual
/-- Schema of a Go struct/field used as a `json.Decode` target.
`objS` models a Go struct (field set is closed), `mapS` models a Go
`map[string]T` (any keys), `arrS` a slice, `anyS` an `interface{}` target,
`timeS` a `time.Time` (decoded from a JSON string; parsing abstracted). -/
inductive Schema where
  | strS
  | intS
  | timeS
  | anyS
  | objS (fs : SchemaFields)
  | mapS (v : Schema)
  | arrS (e : Schema)
inductive SchemaFields where
  | nil
  | cons (k : String) (s : Schema) (rest : SchemaFields)
end

/-- Look up a key in a JSON object's field list (first match). -/
def lookupKey (k : String) : List (String × Json) → Option Json
  | [] => none
  | (k2, v) :: rest => if k2 = k then some v else lookupKey k rest

mutual
/-- Models whether `json.Decode` of `j` into the Go target described by `s`
succeeds.  Each key of a JSON object at a struct (`objS`) node is matched
to a declared field the way `encoding/json` matches field names: an exact
tag match is preferred (`checkExact`), otherwise the first
case-insensitively matching field (`checkFold`); the matched field's schema
checks the value.  A key matching no field either way is ignored when
`strict = false` and rejects the body when `strict = true`
(`DisallowUnknownFields`).  A declared field absent from the object is fine
(Go leaves the zero value), and `null` decodes into any target. -/
def checkJson (strict : Bool) : Schema → Json → Bool
  | .anyS, _ => true
  | .strS, j =>
    match j with
    | .null => true
    | .str _ => true
    | _ => false
  | .intS, j =>
    match j with
    | .null => true
    | .num _ => true
    | _ => false
  | .timeS, j =>
    match j with
    | .null => true
    | .str _ => true
    | _ => false
  | .objS fs, j =>
    match j with
    | .null => true
    | .obj kvs =>
      kvs.all (fun kv =>
        match checkExact strict fs kv.1 kv.2 with
        | some b => b
        | none =>
          match checkFold strict fs kv.1 kv.2 with
          | some b => b
          | none => !strict)
    | _ => false
  | .mapS v, j =>
    match j with
    | .null => true
    | .obj kvs => kvs.all (fun kv => checkJson strict v kv.2)
    | _ => false
  | .arrS e, j =>
    match j with
    | .null => true
    | .arr xs => xs.all (fun x => checkJson strict e x)
    | _ => false

/-- Walk the declared fields for an exact tag match of `key`; when found,
return the check of `v` against that field's schema. -/
def checkExact (strict : Bool) : SchemaFields → String → Json → Option Bool
  | .nil, _, _ => none
  | .cons k s rest, key, v =>
    if k == key then some (checkJson strict s v) else checkExact strict rest key v

/-- Walk the declared fields for a case-insensitive tag match of `key`
(Go's folded fallback); when found, return the check of `v` against that
field's schema. -/
def checkFold (strict : Bool) : SchemaFields → String → Json → Option Bool
  | .nil, _, _ => none
  | .cons k s rest, key, v =>
    if eqFold k key then some (checkJson strict s v) else checkFold strict rest key v
end

mutual
/-- Does `j` contain, at a struct position of the schema, a key that
matches no declared field — not even case-insensitively?  This is the
"unknown JSON field" notion of C10, aligned with what
`DisallowUnknownFields` rejects: keys under `mapS`/`anyS` positions belong
to the schema by construction, and a case-variant spelling of a declared
field is NOT unknown (Go matches it by the folded fallback). -/
def hasAlienKey : Schema → Json → Bool
  | .objS fs, .obj kvs =>
    kvs.any (fun kv =>
      match alienExact fs kv.1 kv.2 with
      | some b => b
      | none =>
        match alienFold fs kv.1 kv.2 with
        | some b => b
        | none => true)
  | .mapS v, .obj kvs => kvs.any (fun kv => hasAlienKey v kv.2)
  | .arrS e, .arr xs => xs.any (fun x => hasAlienKey e x)
  | _, _ => false

/-- Alien-key search: exact-match walk (mirrors `checkExact`). -/
def alienExact : SchemaFields → String → Json → Option Bool
  | .nil, _, _ => none
  | .cons k s rest, key, v =>
    if k == key then some (hasAlienKey s v) else alienExact rest key v

/-- Alien-key search: case-folded walk (mirrors `checkFold`). -/
def alienFold : SchemaFields → String → Json → Option Bool
  | .nil, _, _ => none
  | .cons k s rest, key, v =>
    if eqFold k key then some (hasAlienKey s v) else alienFold rest key v
end

/-- Follow a path of object keys through a JSON value. -/
def jPath : Json → List String → Option Json
  | j, [] => some j
  | .obj kvs, k :: rest =>
    match lookupKey k kvs with
    | some v => jPath v rest
    | none => none
  | _, _ :: _ => none

/-- String at the end of a lookup, defaulting to `""` (Go zero value /
failed type assertion). -/
def strOfD (o : Option Json) : String :=
  match o with
  | some (.str s) => s
  | _ => ""

/-- Integer at the end of a lookup, defaulting to `0` (Go zero value). -/
def intOfD (o : Option Json) : Int :=
  match o with
  | some (.num n) => n
  | _ => 0

/-! ## contentful/asset.go: pure helpers -/

/-- `ensureHTTPS` (asset.go): rewrite protocol-relative and (lowercase)
insecure-scheme URLs to https, after trimming whitespace. -/
def ensureHTTPS (u : String) : String :=
  let s := strTrim u
  if strStarts s "//" then "https:" ++ s
  else if strStarts (strToLower s) "http://" then "https://" ++ goTrimPre s "http://"
  else s

/-- `removeTimestampFromFilename` (asset.go): strip a `_<timestamp>` suffix
that was added during download.  Translated verbatim, including the
`HasSuffix` test on the whole filename. -/
def removeTimestampFromFilename (filename originalCreatedAt : String) : String :=
  if originalCreatedAt = "" then filename
  else
    let timestampPattern := "_" ++ originalCreatedAt
    if strEnds filename timestampPattern then
      let ext := filepathExt filename
      let nameWithoutExt := goTrimSuffix filename ext
      let cleanName := goTrimSuffix nameWithoutExt timestampPattern
      cleanName ++ ext
    else filename

/-- The download-time suffixing rule of `DownloadAssetFile` (asset.go):
`fmt.Sprintf("%s_%s%s", nameWithoutExt, timestamp, ext)`. -/
def addTimestampToFilename (fileName timestamp : String) : String :=
  let ext := filepathExt fileName
  let nameWithoutExt := goTrimSuffix fileName ext
  nameWithoutExt ++ "_" ++ timestamp ++ ext

/-! ## Response schemas (translated from the Go struct tags) -/

/-- The `{sys: {type, linkType, id}}` link wrapper used throughout both
response structs. -/
def sysLinkSchema : Schema :=
  .objS (.cons "type" .strS (.cons "linkType" .strS (.cons "id" .strS .nil)))

/-- A struct holding just a `sys` link (space, environment, createdBy, ...). -/
def linkWrapSchema : Schema := .objS (.cons "sys" sysLinkSchema .nil)

/-- `metadata` of `EntryResponse` / `AssetResponse`: `{tags: []any, concepts: []any}`. -/
def metadataSchema : Schema :=
  .objS (.cons "tags" (.arrS .anyS) (.cons "concepts" (.arrS .anyS) .nil))

/-- `sys` of `EntryResponse` (entry.go). -/
def entrySysSchema : Schema :=
  .objS (.cons "space" linkWrapSchema
    (.cons "id" .strS
    (.cons "type" .strS
    (.cons "createdAt" .timeS
    (.cons "updatedAt" .timeS
    (.cons "environment" linkWrapSchema
    (.cons "publishedVersion" .intS
    (.cons "publishedAt" .timeS
    (.cons "firstPublishedAt" .timeS
    (.cons "createdBy" linkWrapSchema
    (.cons "updatedBy" linkWrapSchema
    (.cons "publishedCounter" .intS
    (.cons "version" .intS
    (.cons "publishedBy" linkWrapSchema
    (.cons "fieldStatus" (.mapS (.mapS .strS))
    (.cons "automationTags" (.arrS .anyS)
    (.cons "contentType" linkWrapSchema
    (.cons "urn" .strS .nil))))))))))))))))))

/-- `EntryResponse` (entry.go): `metadata`, `sys`, `fields map[string]any`. -/
def entrySchema : Schema :=
  .objS (.cons "metadata" metadataSchema
    (.cons "sys" entrySysSchema
    (.cons "fields" (.mapS .anyS) .nil)))

/-- `sys` of `AssetResponse` (asset.go): like the entry's `sys` without
`automationTags`/`contentType`, plus the optional archive fields. -/
def assetSysSchema : Schema :=
  .objS (.cons "space" linkWrapSchema
    (.cons "id" .strS
    (.cons "type" .strS
    (.cons "createdAt" .timeS
    (.cons "updatedAt" .timeS
    (.cons "environment" linkWrapSchema
    (.cons "publishedVersion" .intS
    (.cons "publishedAt" .timeS
    (.cons "firstPublishedAt" .timeS
    (.cons "createdBy" linkWrapSchema
    (.cons "updatedBy" linkWrapSchema
    (.cons "publishedCounter" .intS
    (.cons "version" .intS
    (.cons "publishedBy" linkWrapSchema
    (.cons "fieldStatus" (.mapS (.mapS .strS))
    (.cons "urn" .strS
    (.cons "archivedAt" .timeS
    (.cons "archivedBy" linkWrapSchema
    (.cons "archivedVersion" .intS .nil)))))))))))))))))))

/-- The per-locale `file` value of `AssetResponse.Fields`. -/
def assetFileValueSchema : Schema :=
  .objS (.cons "url" .strS
    (.cons "details" (.objS (.cons "size" .intS .nil))
    (.cons "fileName" .strS
    (.cons "contentType" .strS .nil))))

/-- `fields` of `AssetResponse`: a struct of three localized maps. -/
def assetFieldsSchema : Schema :=
  .objS (.cons "title" (.mapS .strS)
    (.cons "description" (.mapS .strS)
    (.cons "file" (.mapS assetFileValueSchema) .nil)))

/-- `AssetResponse` (asset.go). -/
def assetSchema : Schema :=
  .objS (.cons "metadata" metadataSchema
    (.cons "sys" assetSysSchema
    (.cons "fields" assetFieldsSchema .nil)))

/-- The anonymous `struct{Sys struct{ID string}}` decode target used for the
upload and create-asset responses (decoded without `DisallowUnknownFields`). -/
def sysIdSchema : Schema :=
  .objS (.cons "sys" (.objS (.cons "id" .strS .nil)) .nil)

/-- The anonymous poll decode target
`struct{Sys struct{Version int}; Fields map[string]any}` (asset.go). -/
def pollSchema : Schema :=
  .objS (.cons "sys" (.objS (.cons "version" .intS .nil))
    (.cons "fields" (.mapS .anyS) .nil))

/-! ## Data model (the caller-facing DTOs of entry.go / asset.go) -/

/-- `Entry` (entry.go). `FieldStatus` is omitted: the pipeline under
verification never reads it. -/
structure Entry where
  id : String
  version : Int
  contentTypeID : String
  assetID : String
deriving DecidableEq, Repr

/-- `Asset` (asset.go). `CreatedAt` keeps the decoded RFC3339 text;
Go stores the parsed `time.Time` (time parsing abstracted). -/
structure Asset where
  id : String
  version : Int
  fileName : String
  fileURL : String
  contentType : String
  title : String
  description : String
  createdAt : String
deriving DecidableEq, Repr

/-- The outcome of one HTTP round trip, as seen by the program: either
`client.Do` returned an error (transport), or a status code and a body. -/
inductive HttpResult where
  | transportErr (msg : String)
  | resp (status : Nat) (body : Json)

/-- Go's 2xx test `status >= 200 && status < 300` (negation of the error
condition `status < 200 || status >= 300` used throughout). -/
def is2xx (status : Nat) : Bool := decide (200 ≤ status ∧ status < 300)

/-- One HTTP call the pipeline makes, with the parameters the claims talk
about.  `pollAssetC` carries the attempt index, the mutating calls carry the
`X-Contentful-Version` value sent. -/
inductive Call where
  | fetchEntryC (entryId : String)
  | fetchAssetC (assetId : String)
  | downloadC (url : String)
  | uploadC
  | createAssetC (fileName : String)
  | processFileC (assetId : String)
  | pollAssetC (assetId : String) (attempt : Nat)
  | publishAssetC (assetId : String) (version : Int)
  | unpublishAssetC (assetId : String) (version : Int)
  | archiveGetC (assetId : String)
  | archivePutC (assetId : String) (version : Int)
  | patchEntryC (entryId : String) (version : Int)
  | publishEntryC (entryId : String) (version : Int)
  | validateFetchC (entryId : String)
deriving DecidableEq, Repr

/-- The pipeline stage a failure-ledger record originates from; determined
in the Go code by the literal message prefix written into the `error` cell
(see `stagePre`). -/
inductive Stage where
  | fetchEntryS
  | fetchAssetS
  | downloadS
  | emptyUrlS
  | noSavedPathS
  | createS
  | unpublishS
  | archiveS
  | missingNewIdS
  | patchS
  | publishS
  | validateFetchS
  | validateMismatchS
deriving DecidableEq, Repr

/-- The literal prefix `main.go` writes in front of the underlying error in
the failure ledger's `error` cell (empty for the messages written whole). -/
def stagePre : Stage → String
  | .fetchEntryS => "fetch entry: "
  | .fetchAssetS => "fetch asset: "
  | .downloadS => "download file: "
  | .emptyUrlS => ""
  | .noSavedPathS => ""
  | .createS => "create new asset: "
  | .unpublishS => "unpublish old asset: "
  | .archiveS => "archive old asset: "
  | .missingNewIdS => ""
  | .patchS => "patch entry: "
  | .publishS => "publish entry: "
  | .validateFetchS => "validation fetch entry: "
  | .validateMismatchS => ""

/-- Is the stage `UNPUBLISH_OLD` or later, in the enumeration claim C1 uses
(`UNPUBLISH_OLD`, `ARCHIVE_OLD`, `PATCH_ENTRY_LINK`, `PUBLISH_ENTRY`,
`VALIDATE`)? -/
def lateStage : Stage → Bool
  | .unpublishS => true
  | .archiveS => true
  | .patchS => true
  | .publishS => true
  | .validateFetchS => true
  | .validateMismatchS => true
  | _ => false

/-- One record appended to exactly one of the two ledgers. -/
inductive LedgerRec where
  | succR (entryId oldAssetId newAssetId : String)
  | failR (entryId oldAssetId newAssetId : String) (stage : Stage) (msg : String)
deriving DecidableEq, Repr

/-- The CSV row written to `success.csv` for a success record. -/
def successCsvRow (e a n : String) : List String := [e, a, n]

/-- The CSV row written to `failed.csv` for a failure record: the `error`
cell is the stage prefix followed by the underlying message. -/
def failedCsvRow (e a n : String) (st : Stage) (m : String) : List String :=
  [e, a, n, stagePre st ++ m]

/-- The backend/network responses a single row consumes, one per HTTP call
in program order.  An arbitrary value of this type is an arbitrary backend
behaviour. -/
structure RowOracle where
  fetchEntryResp : HttpResult
  fetchAssetResp : HttpResult
  downloadResp : HttpResult
  uploadResp : HttpResult
  createResp : HttpResult
  processResp : HttpResult
  pollResp : Nat → HttpResult
  publishAssetResp : HttpResult
  unpublishResp : HttpResult
  archiveGetResp : HttpResult
  archivePutResp : HttpResult
  patchResp : HttpResult
  publishEntryResp : HttpResult
  validateResp : HttpResult

/-! ## contentful/entry.go and contentful/asset.go: client operations

Each operation takes the `HttpResult`(s) the oracle supplies for its HTTP
round trips and returns exactly what the Go function returns, plus the list
of `Call`s it performed.  Request payloads (JSON bodies sent) are not
modelled; the parameters the claims inspect (ids, versions, attempt counts)
are recorded in the `Call` trace. -/

/-- Field extraction performed by `FetchEntry` after a successful decode:
zero values for everything a failed lookup or type assertion would leave. -/
def extractEntry (body : Json) : Entry :=
  { id := strOfD (jPath body ["sys", "id"])
    version := intOfD (jPath body ["sys", "version"])
    contentTypeID := strOfD (jPath body ["sys", "contentType", "sys", "id"])
    assetID := strOfD (jPath body ["fields", "downloadableFile", "en-US", "sys", "id"]) }

/-- `FetchEntry` (entry.go): GET, 2xx check, strict decode
(`DisallowUnknownFields`), extraction.  Returns (result, status). -/
def FetchEntry (r : HttpResult) : Except String Entry × Nat :=
  match r with
  | .transportErr m => (.error m, 0)
  | .resp status body =>
    if is2xx status then
      if checkJson true entrySchema body then (.ok (extractEntry body), status)
      else (.error "decode error", status)
    else (.error ("unexpected status " ++ toString status), status)

/-- Field extraction performed by `FetchAsset` after a successful decode. -/
def extractAsset (body : Json) : Asset :=
  { id := strOfD (jPath body ["sys", "id"])
    version := intOfD (jPath body ["sys", "version"])
    fileName := strOfD (jPath body ["fields", "file", "en-US", "fileName"])
    fileURL := strOfD (jPath body ["fields", "file", "en-US", "url"])
    contentType := strOfD (jPath body ["fields", "file", "en-US", "contentType"])
    title := strOfD (jPath body ["fields", "title", "en-US"])
    description := strOfD (jPath body ["fields", "description", "en-US"])
    createdAt := strOfD (jPath body ["sys", "createdAt"]) }

/-- `FetchAsset` (asset.go): GET, 2xx check, strict decode, extraction. -/
def FetchAsset (r : HttpResult) : Except String Asset × Nat :=
  match r with
  | .transportErr m => (.error m, 0)
  | .resp status body =>
    if is2xx status then
      if checkJson true assetSchema body then (.ok (extractAsset body), status)
      else (.error "decode error", status)
    else (.error ("unexpected status " ++ toString status), status)

/-- `DownloadAssetFile` (asset.go): empty-URL guard, file-name derivation
(declared name, then URL path basename, then asset id), timestamp suffix,
GET via `ensureHTTPS`, 2xx check.  `os.MkdirAll`/`os.Create`/`io.Copy` are
assumed to succeed. -/
def DownloadAssetFile (asset : Asset) (destDir : String) (r : HttpResult) :
    Except String String × Nat × List Call :=
  if strTrim asset.fileURL = "" then (.error "empty asset file URL", 0, [])
  else
    let fileName0 := strTrim asset.fileName
    let fileName1 :=
      if fileName0 = "" then
        let base := filepathBase (urlPathOf (ensureHTTPS asset.fileURL))
        if base != "." && base != "/" && base != "" then base else ""
      else fileName0
    let fileName2 := if fileName1 = "" then asset.id else fileName1
    let timestamp := formatCompactTimestamp asset.createdAt
    let destPath := destDir ++ "/" ++ addTimestampToFilename fileName2 timestamp
    let calls := [Call.downloadC (ensureHTTPS asset.fileURL)]
    match r with
    | .transportErr m => (.error m, 0, calls)
    | .resp status _ =>
      if is2xx status then (.ok destPath, status, calls)
      else (.error ("download status " ++ toString status), status, calls)

/-- Result of the bounded processing poll inside
`CreateAndPublishAssetFromFile`. -/
inductive PollRes where
  | found (latestVersion : Int)
  | errOut (status : Nat) (msg : String)
  | exhausted
deriving DecidableEq, Repr

/-- The break condition of the poll loop (asset.go, step 4): does
`fields.file[locale].url` hold a non-blank string?  (Go checks this with a
chain of `map[string]any` type assertions.) -/
def pollHasURL (body : Json) (locale : String) : Bool :=
  match jPath body ["fields", "file", locale, "url"] with
  | some (.str u) => strTrim u != ""
  | _ => false

/-- The poll loop of `CreateAndPublishAssetFromFile` (asset.go, step 4):
`for i := 0; i < 60; i++`, GET the created asset, capture `sys.version`,
break when `pollHasURL`.  `rem` is the number of attempts left, `i` the
attempt index. -/
def pollLoop (pollResp : Nat → HttpResult) (newAssetID locale : String) :
    Nat → Nat → PollRes × List Call
  | 0, _ => (.exhausted, [])
  | rem + 1, i =>
    match pollResp i with
    | .transportErr m => (.errOut 0 m, [Call.pollAssetC newAssetID i])
    | .resp st body =>
      if is2xx st then
        if checkJson false pollSchema body then
          if pollHasURL body locale then
            (.found (intOfD (jPath body ["sys", "version"])), [Call.pollAssetC newAssetID i])
          else
            let next := pollLoop pollResp newAssetID locale rem (i + 1)
            (next.1, Call.pollAssetC newAssetID i :: next.2)
        else (.errOut 0 "decode error", [Call.pollAssetC newAssetID i])
      else (.errOut st "get created asset failed", [Call.pollAssetC newAssetID i])

/-- The file-name computation at the top of `CreateAndPublishAssetFromFile`
(asset.go): fall back to the base name of the local path when the asset has
no declared name, then strip the download-time timestamp suffix using
`OriginalCreatedAt` (which `main.go` sets to `asset.CreatedAt`).  The full
operation below returns (newAssetID, status, error?) exactly as the Go
triple; the timeout error carries the already-created asset id.  The
metadata payload (title defaulting) is not observable in the model; the file
name is recorded on `createAssetC`. -/
def createFileName (asset : Asset) (filePath : String) : String :=
  let fileName1 :=
    if strTrim asset.fileName = "" then filepathBase (strTrim filePath)
    else asset.fileName
  removeTimestampFromFilename fileName1 (formatCompactTimestamp asset.createdAt)

/-- Go's blank-locale defaulting (`main` always passes `en-US`). -/
def localeOrDefault (locale0 : String) : String :=
  if strTrim locale0 = "" then "en-US" else locale0

/-- `CreateAndPublishAssetFromFile`, continued: upload, create, process,
poll, publish.  See the doc comment above `createFileName`. -/
def CreateAndPublishAssetFromFile (asset : Asset) (filePath locale0 : String)
    (o : RowOracle) : (String × Nat × Option String) × List Call :=
  let fileName := createFileName asset filePath
  let locale := localeOrDefault locale0
  match o.uploadResp with
  | .transportErr m => (("", 0, some m), [Call.uploadC])
  | .resp ust ubody =>
    if is2xx ust then
      if checkJson false sysIdSchema ubody then
        match o.createResp with
        | .transportErr m => (("", 0, some m), [Call.uploadC, Call.createAssetC fileName])
        | .resp cst cbody =>
          if is2xx cst then
            if checkJson false sysIdSchema cbody then
              let newAssetID := strOfD (jPath cbody ["sys", "id"])
              let pre := [Call.uploadC, Call.createAssetC fileName,
                Call.processFileC newAssetID]
              match o.processResp with
              | .transportErr m => ((newAssetID, 0, some m), pre)
              | .resp _ _ =>
                match pollLoop o.pollResp newAssetID locale 60 0 with
                | (.found latestVersion, pcalls) =>
                  let allCalls := pre ++ pcalls ++ [Call.publishAssetC newAssetID latestVersion]
                  (match o.publishAssetResp with
                   | .transportErr m => ((newAssetID, 0, some m), allCalls)
                   | .resp pst _ =>
                     if is2xx pst then ((newAssetID, pst, none), allCalls)
                     else ((newAssetID, pst, some "publish asset failed"), allCalls))
                | (.errOut st m, pcalls) => ((newAssetID, st, some m), pre ++ pcalls)
                | (.exhausted, pcalls) =>
                  ((newAssetID, 0,
                    some "asset processing did not complete: file URL missing"),
                    pre ++ pcalls)
            else (("", cst, some "decode error"), [Call.uploadC, Call.createAssetC fileName])
          else (("", cst, some "create asset failed"), [Call.uploadC, Call.createAssetC fileName])
      else (("", ust, some "decode error"), [Call.uploadC])
    else (("", ust, some "upload failed"), [Call.uploadC])

/-- `UnpublishAsset` (asset.go): one DELETE with `X-Contentful-Version` set
to the `version` argument. -/
def UnpublishAsset (assetID : String) (version : Int) (r : HttpResult) :
    (Nat × Option String) × List Call :=
  let calls := [Call.unpublishAssetC assetID version]
  match r with
  | .transportErr m => ((0, some m), calls)
  | .resp status _ =>
    if is2xx status then ((status, none), calls)
    else ((status, some ("unpublish asset failed with status " ++ toString status)), calls)

/-- `ArchiveAsset` (asset.go): GET the current resource, decode it into a
generic map (errors only when the body is not an object/null), require a
`sys` object, then PUT to `/archived` with `X-Contentful-Version` set to the
`version` argument (both in the query and the header) — NOT to the
`sys.version` of the re-fetched resource.  The resubmitted payload
(`archivedAt` stamped on) is not observed by any claim; `time.Now` is
abstracted away. -/
def ArchiveAsset (assetID : String) (version : Int) (getResp putResp : HttpResult) :
    (Nat × Option String) × List Call :=
  match getResp with
  | .transportErr m => ((0, some m), [Call.archiveGetC assetID])
  | .resp gst gbody =>
    if is2xx gst then
      match gbody with
      | .obj kvs =>
        (match lookupKey "sys" kvs with
         | some (.obj _) =>
           (match putResp with
            | .transportErr m =>
              ((0, some m), [Call.archiveGetC assetID, Call.archivePutC assetID version])
            | .resp pst _ =>
              if is2xx pst then
                ((pst, none), [Call.archiveGetC assetID, Call.archivePutC assetID version])
              else
                ((pst, some ("archive failed with status " ++ toString pst)),
                  [Call.archiveGetC assetID, Call.archivePutC assetID version]))
         | _ => ((0, some "invalid asset response: missing sys"), [Call.archiveGetC assetID]))
      | .null => ((0, some "invalid asset response: missing sys"), [Call.archiveGetC assetID])
      | _ => ((0, some "decode error"), [Call.archiveGetC assetID])
    else ((gst, some ("get asset failed with status " ++ toString gst)),
      [Call.archiveGetC assetID])

/-- `PatchEntryAssetLink` (entry.go): PATCH with `X-Contentful-Version` set
to `version`; on success the backend-assigned `sys.version` of the response
is returned (decoded without `DisallowUnknownFields`). -/
def PatchEntryAssetLink (entryID _fieldKey _locale0 _newAssetID : String) (version : Int)
    (r : HttpResult) : (Int × Nat × Option String) × List Call :=
  let calls := [Call.patchEntryC entryID version]
  match r with
  | .transportErr m => ((0, 0, some m), calls)
  | .resp status body =>
    if is2xx status then
      if checkJson false entrySchema body then
        ((intOfD (jPath body ["sys", "version"]), status, none), calls)
      else ((0, status, some "decode error"), calls)
    else ((0, status, some "patch entry failed"), calls)

/-- `PublishEntry` (entry.go): one PUT with `X-Contentful-Version` set to
`version`. -/
def PublishEntry (entryID : String) (version : Int) (r : HttpResult) :
    (Nat × Option String) × List Call :=
  let calls := [Call.publishEntryC entryID version]
  match r with
  | .transportErr m => ((0, some m), calls)
  | .resp status _ =>
    if is2xx status then ((status, none), calls)
    else ((status, some ("publish entry failed with status " ++ toString status)), calls)

/-! ## main.go: the per-row replacement pipeline -/

/-- `validateAssetReplacement` (main.go): re-fetch the entry; a fetch error
or a linked-asset mismatch writes a failure record, a match writes the
success record.  The middle component counts `warnf` emissions. -/
def validateAssetReplacement (entryID newAssetID oldAssetID : String) (r : HttpResult) :
    LedgerRec × Nat × List Call :=
  let calls := [Call.validateFetchC entryID]
  match (FetchEntry r).1 with
  | .error verr => (.failR entryID oldAssetID newAssetID .validateFetchS verr, 1, calls)
  | .ok validatedEntry =>
    if validatedEntry.assetID = newAssetID then
      (.succR entryID oldAssetID newAssetID, 0, calls)
    else
      (.failR entryID oldAssetID newAssetID .validateMismatchS
        ("validation failed: expected asset " ++ newAssetID ++ " but found "
          ++ validatedEntry.assetID), 1, calls)

/-- The body of `main`'s loop after the row guards (main.go lines 104-257):
the fixed sequence fetch entry → fetch asset → download → create+publish new
asset → unpublish old (with the initially fetched asset version) → archive
old (same initial version) → patch entry (initially fetched entry version) →
publish entry (patch-returned version) → validate.  Every path returns
exactly one `LedgerRec`; the middle component counts `warnf` emissions. -/
def replaceRow (entryID assetID : String) (o : RowOracle) : LedgerRec × Nat × List Call :=
  let cFE := [Call.fetchEntryC entryID]
  match (FetchEntry o.fetchEntryResp).1 with
  | .error e => (.failR entryID assetID "" .fetchEntryS e, 1, cFE)
  | .ok entry =>
    let cFA := cFE ++ [Call.fetchAssetC assetID]
    match (FetchAsset o.fetchAssetResp).1 with
    | .error e => (.failR entryID assetID "" .fetchAssetS e, 1, cFA)
    | .ok asset =>
      if strTrim asset.fileURL != "" then
        match DownloadAssetFile asset "downloaded" o.downloadResp with
        | (.error derr, _, dcalls) => (.failR entryID assetID "" .downloadS derr, 1, cFA ++ dcalls)
        | (.ok savedPath, _, dcalls) =>
          let cDL := cFA ++ dcalls
          if savedPath != "" then
            match CreateAndPublishAssetFromFile asset savedPath "en-US" o with
            | ((nid, _, some cerr), ccalls) =>
              (.failR entryID assetID nid .createS cerr, 1, cDL ++ ccalls)
            | ((nid, _, none), ccalls) =>
              let newAssetID := nid
              let cCR := cDL ++ ccalls
              match UnpublishAsset assetID asset.version o.unpublishResp with
              | ((_, some uerr), ucalls) =>
                (.failR entryID assetID newAssetID .unpublishS uerr, 1, cCR ++ ucalls)
              | ((_, none), ucalls) =>
                let cUP := cCR ++ ucalls
                match ArchiveAsset assetID asset.version o.archiveGetResp o.archivePutResp with
                | ((_, some aerr), acalls) =>
                  (.failR entryID assetID newAssetID .archiveS aerr, 1, cUP ++ acalls)
                | ((_, none), acalls) =>
                  let cAR := cUP ++ acalls
                  if newAssetID != "" then
                    match PatchEntryAssetLink entryID "downloadableFile" "en-US" newAssetID
                        entry.version o.patchResp with
                    | ((_, _, some perr), pcalls) =>
                      (.failR entryID assetID newAssetID .patchS perr, 1, cAR ++ pcalls)
                    | ((newVersion, _, none), pcalls) =>
                      let cPA := cAR ++ pcalls
                      match PublishEntry entryID newVersion o.publishEntryResp with
                      | ((_, some puberr), pubcalls) =>
                        (.failR entryID assetID newAssetID .publishS puberr, 1, cPA ++ pubcalls)
                      | ((_, none), pubcalls) =>
                        let cPU := cPA ++ pubcalls
                        let v := validateAssetReplacement entryID newAssetID assetID o.validateResp
                        (v.1, v.2.1, cPU ++ v.2.2)
                  else
                    (.failR entryID assetID newAssetID .missingNewIdS "missing new asset id", 0, cAR)
          else (.failR entryID assetID "" .noSavedPathS "no savedPath for new asset", 0, cDL)
      else (.failR entryID assetID "" .emptyUrlS "asset has empty file URL", 0, cFA)

/-- One item yielded by `reader.Read()` in the main loop: a read error or a
record of fields (CSV parsing itself is out of scope per the spec). -/
inductive RowRead where
  | readErr
  | record (fields : List String)
deriving DecidableEq, Repr

/-- What processing one row did to the ledgers: `crash` models the
index-out-of-range panic of `record[1]` on a one-field record. -/
inductive RowOut where
  | crash
  | skip
  | wrote (r : LedgerRec)
deriving DecidableEq, Repr

/-- Outcome of one main-loop iteration: ledger effect, number of `warnf`
emissions, HTTP calls made. -/
structure RowStep where
  out : RowOut
  warns : Nat
  calls : List Call
deriving DecidableEq, Repr

/-- The trimmed field access `strings.TrimSpace(record[i])` of one
main-loop iteration (main.go lines 78-257): read-error and empty-record
guards, then the `record[0]`/`record[1]` accesses (a one-field record
panics: only `len(record) == 0` is guarded), blank-field guard, first-row
header skip (no warning), then the replacement pipeline. -/
def rowField (fields : List String) (i : Nat) : String := strTrim (fields.getD i "")

/-- One iteration of the main loop, continued (see `rowField` for the
trimmed `record[i]` accesses). -/
def processRow (rowNum : Nat) (row : RowRead) (o : RowOracle) : RowStep :=
  match row with
  | .readErr => ⟨.skip, 1, []⟩
  | .record fields =>
    if fields.length = 0 then ⟨.skip, 1, []⟩
    else if fields.length = 1 then ⟨.crash, 0, []⟩
    else
      if rowField fields 0 = "" ∨ rowField fields 1 = "" then ⟨.skip, 1, []⟩
      else if rowNum = 1 ∧ (eqFold (rowField fields 0) "entry_id" ∨
          eqFold (rowField fields 1) "asset_id") then
        ⟨.skip, 0, []⟩
      else
        let p := replaceRow (rowField fields 0) (rowField fields 1) o
        ⟨.wrote p.1, p.2.1, p.2.2⟩

/-- The whole run over the remaining rows, starting after `rowNum` rows have
been consumed: returns (success.csv records, failed.csv records, crashed?).
A crash (panic) terminates the run with nothing more written. -/
def runRows (rowNum : Nat) : List (RowRead × RowOracle) →
    List (List String) × List (List String) × Bool
  | [] => ([], [], false)
  | (row, o) :: rest =>
    let step := processRow (rowNum + 1) row o
    match step.out with
    | .crash => ([], [], true)
    | .skip => runRows (rowNum + 1) rest
    | .wrote r0 =>
      let next := runRows (rowNum + 1) rest
      match r0 with
      | .succR e a n => (successCsvRow e a n :: next.1, next.2.1, next.2.2)
      | .failR e a n st m => (next.1, failedCsvRow e a n st m :: next.2.1, next.2.2)

/-- Claim C3's notion of a row that "parses": at least the two required
columns, both non-blank after trimming, and not the skipped header row. -/
def rowParses (rowNum : Nat) (row : RowRead) : Bool :=
  match row with
  | .readErr => false
  | .record fields =>
    if fields.length < 2 then false
    else if rowField fields 0 = "" ∨ rowField fields 1 = "" then false
    else if rowNum = 1 ∧ (eqFold (rowField fields 0) "entry_id" ∨
        eqFold (rowField fields 1) "asset_id") then false
    else true

/-- Number of parsing rows (claim C3's accounting), numbered like `runRows`. -/
def countParsing (rowNum : Nat) : List (RowRead × RowOracle) → Nat
  | [] => 0
  | (row, _) :: rest =>
    (if rowParses (rowNum + 1) row then 1 else 0) + countParsing (rowNum + 1) rest

/-- No delivered record has exactly one field (the shape that panics). -/
def recLenOk : RowRead → Bool
  | .readErr => true
  | .record fields => fields.length != 1

/-- Calls that touch the old asset (the unpublish DELETE, and the GET/PUT
pair of the archive step). -/
def isOldMutation : Call → Bool
  | .unpublishAssetC _ _ => true
  | .archiveGetC _ => true
  | .archivePutC _ _ => true
  | _ => false

/-- A trace with no calls touching the old asset. -/
def noOldAssetMutation (cs : List Call) : Bool := cs.all (fun c => !(isOldMutation c))

/-! ## Concrete backend behaviours used by witnesses and counterexamples -/

/-- A well-formed entry response whose `downloadableFile` field links the
given asset id; entry version 7. -/
def entryBodyOk (link : String) : Json :=
  .obj [("sys", .obj [("id", .str "E1"), ("version", .num 7)]),
    ("fields", .obj [("downloadableFile",
      .obj [("en-US", .obj [("sys", .obj [("id", .str link)])])])])]

/-- A well-formed asset response: id `A1`, version 5, a png file, created
2023-01-01 12:00:00 UTC. -/
def assetBodyOk : Json :=
  .obj [("sys", .obj [("id", .str "A1"), ("version", .num 5),
      ("createdAt", .str "2023-01-01T12:00:00Z")]),
    ("fields", .obj [("title", .obj [("en-US", .str "T")]),
      ("description", .obj []),
      ("file", .obj [("en-US", .obj [("url", .str "https://host/file.png"),
        ("fileName", .str "file.png"),
        ("contentType", .str "image/png")])])])]

/-- A poll response that reports version 3 and a ready file URL. -/
def pollBodyReady : Json :=
  .obj [("sys", .obj [("version", .num 3)]),
    ("fields", .obj [("file", .obj [("en-US",
      .obj [("url", .str "https://host/new.png")])])])]

/-- A poll response that reports version 3 and no file URL yet. -/
def pollBodyPending : Json :=
  .obj [("sys", .obj [("version", .num 3)]), ("fields", .obj [])]

/-- A backend behaviour under which every step of the row succeeds and the
created asset gets id `N1`; the post-publish re-fetch shows the entry linked
to `N1`.  The archive-step GET reports the (already bumped) version 6. -/
def goodOracle : RowOracle :=
  { fetchEntryResp := .resp 200 (entryBodyOk "A1")
    fetchAssetResp := .resp 200 assetBodyOk
    downloadResp := .resp 200 .null
    uploadResp := .resp 201 (.obj [("sys", .obj [("id", .str "U1")])])
    createResp := .resp 201 (.obj [("sys", .obj [("id", .str "N1")])])
    processResp := .resp 204 .null
    pollResp := fun _ => .resp 200 pollBodyReady
    publishAssetResp := .resp 200 .null
    unpublishResp := .resp 200 .null
    archiveGetResp := .resp 200 (.obj [("sys", .obj [("version", .num 6)])])
    archivePutResp := .resp 200 .null
    patchResp := .resp 200 (.obj [("sys", .obj [("version", .num 8)])])
    publishEntryResp := .resp 200 .null
    validateResp := .resp 200 (entryBodyOk "N1") }

/-- A backend behaviour that answers every call with a transport error. -/
def downOracle : RowOracle :=
  { fetchEntryResp := .transportErr "connection refused"
    fetchAssetResp := .transportErr "connection refused"
    downloadResp := .transportErr "connection refused"
    uploadResp := .transportErr "connection refused"
    createResp := .transportErr "connection refused"
    processResp := .transportErr "connection refused"
    pollResp := fun _ => .transportErr "connection refused"
    publishAssetResp := .transportErr "connection refused"
    unpublishResp := .transportErr "connection refused"
    archiveGetResp := .transportErr "connection refused"
    archivePutResp := .transportErr "connection refused"
    patchResp := .transportErr "connection refused"
    publishEntryResp := .transportErr "connection refused"
    validateResp := .transportErr "connection refused" }

/-- Like `goodOracle`, but the create-asset response carries no `sys.id`
(an empty-bodied 2xx), so the created id is the empty string, and the
subsequent unpublish of the old asset fails with a 500. -/
def emptyIdOracle : RowOracle :=
  { goodOracle with
    createResp := .resp 201 (.obj [])
    unpublishResp := .resp 500 .null }

/-- Like `goodOracle`, but no poll response ever shows a file URL: the
60-attempt cap is exhausted. -/
def timeoutOracle : RowOracle :=
  { goodOracle with pollResp := fun _ => .resp 200 pollBodyPending }

/-! ## Helper lemmas -/

/-- Correspondence of the exact-match walks of `hasAlienKey` and
`checkJson` over the same field list: either neither finds an exact match
for `key`, or both find the SAME field, whose schema is smaller than the
whole list. -/
theorem walk_exact_spec (strict : Bool) : (fs : SchemaFields) → (key : String) →
    (v : Json) →
    (alienExact fs key v = none ∧ checkExact strict fs key v = none) ∨
    (∃ s2, sizeOf s2 < sizeOf fs ∧ alienExact fs key v = some (hasAlienKey s2 v) ∧
      checkExact strict fs key v = some (checkJson strict s2 v))
  | .nil, _, _ => Or.inl ⟨rfl, rfl⟩
  | .cons k s rest, key, v => by
    by_cases hk : (k == key) = true
    · refine Or.inr ⟨s, ?_, ?_, ?_⟩
      · simp
        omega
      · simp only [alienExact, if_pos hk]
      · simp only [checkExact, if_pos hk]
    · rcases walk_exact_spec strict rest key v with ⟨ha, hc⟩ | ⟨s2, hlt, ha, hc⟩
      · refine Or.inl ⟨?_, ?_⟩
        · simp only [alienExact, if_neg hk]
          exact ha
        · simp only [checkExact, if_neg hk]
          exact hc
      · refine Or.inr ⟨s2, ?_, ?_, ?_⟩
        · have h2 : sizeOf rest < sizeOf (SchemaFields.cons k s rest) := by
            simp
          omega
        · simp only [alienExact, if_neg hk]
          exact ha
        · simp only [checkExact, if_neg hk]
          exact hc

/-- Correspondence of the case-folded walks of `hasAlienKey` and
`checkJson`, as `walk_exact_spec`. -/
theorem walk_fold_spec (strict : Bool) : (fs : SchemaFields) → (key : String) →
    (v : Json) →
    (alienFold fs key v = none ∧ checkFold strict fs key v = none) ∨
    (∃ s2, sizeOf s2 < sizeOf fs ∧ alienFold fs key v = some (hasAlienKey s2 v) ∧
      checkFold strict fs key v = some (checkJson strict s2 v))
  | .nil, _, _ => Or.inl ⟨rfl, rfl⟩
  | .cons k s rest, key, v => by
    by_cases hk : eqFold k key = true
    · refine Or.inr ⟨s, ?_, ?_, ?_⟩
      · simp
        omega
      · simp only [alienFold, if_pos hk]
      · simp only [checkFold, if_pos hk]
    · rcases walk_fold_spec strict rest key v with ⟨ha, hc⟩ | ⟨s2, hlt, ha, hc⟩
      · refine Or.inl ⟨?_, ?_⟩
        · simp only [alienFold, if_neg hk]
          exact ha
        · simp only [checkFold, if_neg hk]
          exact hc
      · refine Or.inr ⟨s2, ?_, ?_, ?_⟩
        · have h2 : sizeOf rest < sizeOf (SchemaFields.cons k s rest) := by
            simp
          omega
        · simp only [alienFold, if_neg hk]
          exact ha
        · simp only [checkFold, if_neg hk]
          exact hc

/-- Bounded form of the alien-key rejection, by strong induction on the
schema size. -/
theorem alien_imp_not_check : ∀ (n : Nat) (s : Schema) (j : Json),
    sizeOf s ≤ n → hasAlienKey s j = true → checkJson true s j = false := by
  intro n
  induction n with
  | zero =>
    intro s j hle h
    cases s <;> simp at hle
  | succ n ih =>
    intro s j hle h
    cases s with
    | strS => simp [hasAlienKey] at h
    | intS => simp [hasAlienKey] at h
    | timeS => simp [hasAlienKey] at h
    | anyS => simp [hasAlienKey] at h
    | objS fs =>
      cases j with
      | obj kvs =>
        have hfs : sizeOf fs ≤ n := by
          simp at hle
          omega
        simp only [hasAlienKey, List.any_eq_true] at h
        obtain ⟨kv, hmem, hkv⟩ := h
        simp only [checkJson]
        rw [List.all_eq_false]
        refine ⟨kv, hmem, ?_⟩
        rcases walk_exact_spec true fs kv.1 kv.2 with ⟨hae, hce⟩ | ⟨s2, hlt, hae, hce⟩
        · rw [hae] at hkv
          rw [hce]
          rcases walk_fold_spec true fs kv.1 kv.2 with ⟨haf, hcf⟩ | ⟨s2, hlt, haf, hcf⟩
          · rw [hcf]
            simp
          · rw [haf] at hkv
            rw [hcf]
            have := ih s2 kv.2 (by omega) hkv
            simp [this]
        · rw [hae] at hkv
          rw [hce]
          have := ih s2 kv.2 (by omega) hkv
          simp [this]
      | null => simp [hasAlienKey] at h
      | str v => simp [hasAlienKey] at h
      | num v => simp [hasAlienKey] at h
      | boolean v => simp [hasAlienKey] at h
      | arr xs => simp [hasAlienKey] at h
    | mapS v =>
      cases j with
      | obj kvs =>
        have hv : sizeOf v ≤ n := by
          simp at hle
          omega
        simp only [hasAlienKey, List.any_eq_true] at h
        obtain ⟨kv, hmem, hkv⟩ := h
        simp only [checkJson]
        rw [List.all_eq_false]
        exact ⟨kv, hmem, by simp [ih v kv.2 hv hkv]⟩
      | null => simp [hasAlienKey] at h
      | str w => simp [hasAlienKey] at h
      | num w => simp [hasAlienKey] at h
      | boolean w => simp [hasAlienKey] at h
      | arr xs => simp [hasAlienKey] at h
    | arrS e =>
      cases j with
      | arr xs =>
        have he : sizeOf e ≤ n := by
          simp at hle
          omega
        simp only [hasAlienKey, List.any_eq_true] at h
        obtain ⟨x, hmem, hkx⟩ := h
        simp only [checkJson]
        rw [List.all_eq_false]
        exact ⟨x, hmem, by simp [ih e x he hkx]⟩
      | null => simp [hasAlienKey] at h
      | str w => simp [hasAlienKey] at h
      | num w => simp [hasAlienKey] at h
      | boolean w => simp [hasAlienKey] at h
      | obj kvs => simp [hasAlienKey] at h

/-- An alien key anywhere at a struct position — one matching no declared
field even case-insensitively — makes the strict decode fail (the
semantics of `DisallowUnknownFields`). -/
theorem hasAlienKey_checkJson_false (s : Schema) (j : Json)
    (h : hasAlienKey s j = true) : checkJson true s j = false :=
  alien_imp_not_check (sizeOf s) s j (Nat.le_refl _) h

/-- The fold matching mirrors Go: case-variant spellings of declared fields
are NOT unknown fields — `SYS` matches the `sys` struct field and `Fields`
matches `fields` — so the strict decode accepts them, exactly as Go's
`DisallowUnknownFields` does. -/
theorem fold_matching_accepts_case_variants :
    hasAlienKey entrySchema (Json.obj [("SYS", Json.null)]) = false ∧
    checkJson true entrySchema (Json.obj [("SYS", Json.null)]) = true ∧
    checkJson true entrySchema
      (Json.obj [("Fields", Json.obj [("anything", Json.str "x")])]) = true ∧
    hasAlienKey entrySchema (Json.obj [("zzz", Json.null)]) = true := by
  exact ⟨by decide, by decide, by decide, by decide⟩

/-- Every call the poll loop makes is a `pollAssetC`. -/
theorem pollLoop_calls_not_mutation (pollResp : Nat → HttpResult) (nid locale : String) :
    ∀ rem i c, c ∈ (pollLoop pollResp nid locale rem i).2 → isOldMutation c = false := by
  intro rem
  induction rem with
  | zero => intro i c hc; simp [pollLoop] at hc
  | succ n ih =>
    intro i c hc
    unfold pollLoop at hc
    split at hc
    · simp at hc; subst hc; rfl
    · split at hc
      · split at hc
        · split at hc
          · simp at hc; subst hc; rfl
          · simp at hc
            rcases hc with hc | hc
            · subst hc; rfl
            · exact ih (i + 1) c hc
        · simp at hc; subst hc; rfl
      · simp at hc; subst hc; rfl

/-- If `CreateAndPublishAssetFromFile` returns without error, the returned
id is the `sys.id` carried by the create-asset response, and the call trace
ends with the new asset's publish, preceded only by non-mutating calls. -/
theorem create_ok_shape (asset : Asset) (filePath locale0 : String) (o : RowOracle)
    (nid : String) (st : Nat) (cs : List Call)
    (h : CreateAndPublishAssetFromFile asset filePath locale0 o = ((nid, st, none), cs)) :
    (∃ cst cbody, o.createResp = HttpResult.resp cst cbody ∧
      nid = strOfD (jPath cbody ["sys", "id"])) ∧
    (∃ cs0 lv, cs = cs0 ++ [Call.publishAssetC nid lv] ∧
      ∀ c ∈ cs0, isOldMutation c = false) := by
  simp only [CreateAndPublishAssetFromFile] at h
  split at h
  · simp at h
  · split at h
    · split at h
      · split at h
        · simp at h
        · rename_i cst cbody heqc
          split at h
          · split at h
            · split at h
              · simp at h
              · split at h
                · rename_i latestVersion pcalls hpoll
                  split at h
                  · simp at h
                  · split at h
                    · simp only [Prod.mk.injEq] at h
                      obtain ⟨⟨h1, _, _⟩, h4⟩ := h
                      subst h1
                      constructor
                      · exact ⟨cst, cbody, heqc, rfl⟩
                      · refine ⟨[Call.uploadC, Call.createAssetC (createFileName asset filePath),
                          Call.processFileC (strOfD (jPath cbody ["sys", "id"]))] ++ pcalls,
                          latestVersion, ?_, ?_⟩
                        · exact h4.symm
                        · intro c hc
                          simp at hc
                          rcases hc with hc | hc | hc | hc
                          · subst hc; rfl
                          · subst hc; rfl
                          · subst hc; rfl
                          · have hp := pollLoop_calls_not_mutation o.pollResp
                              (strOfD (jPath cbody ["sys", "id"])) (localeOrDefault locale0) 60 0 c
                            rw [hpoll] at hp
                            exact hp hc
                    · simp at h
                · simp at h
                · simp at h
            · simp at h
          · simp at h
      · simp at h
    · simp at h

/-- Per-row trichotomy used by the ledger accounting: a delivered record
that is not the panicking one-field shape either parses and writes exactly
one ledger record, or does not parse and writes none. -/
theorem processRow_cases (n : Nat) (row : RowRead) (o : RowOracle)
    (h : recLenOk row = true) :
    (rowParses n row = true ∧ ∃ r0, (processRow n row o).out = RowOut.wrote r0) ∨
    (rowParses n row = false ∧ (processRow n row o).out = RowOut.skip) := by
  cases row with
  | readErr => right; simp [processRow, rowParses]
  | record fields =>
    simp only [recLenOk, bne_iff_ne, ne_eq] at h
    by_cases h0 : fields.length = 0
    · right
      constructor
      · simp [rowParses, h0]
      · simp [processRow, h0]
    · have h2 : ¬ fields.length < 2 := by omega
      by_cases hb : rowField fields 0 = "" ∨ rowField fields 1 = ""
      · right
        constructor
        · simp only [rowParses, if_neg h2, if_pos hb]
        · simp only [processRow, if_neg h0, if_neg h, if_pos hb]
      · by_cases hh : n = 1 ∧ (eqFold (rowField fields 0) "entry_id" = true ∨
            eqFold (rowField fields 1) "asset_id" = true)
        · right
          constructor
          · simp only [rowParses, if_neg h2, if_neg hb, if_pos hh]
          · simp only [processRow, if_neg h0, if_neg h, if_neg hb, if_pos hh]
        · left
          constructor
          · simp only [rowParses, if_neg h2, if_neg hb, if_neg hh]
          · refine ⟨(replaceRow (rowField fields 0) (rowField fields 1) o).1, ?_⟩
            simp only [processRow, if_neg h0, if_neg h, if_neg hb, if_neg hh]

/-- The run-level ledger accounting behind C3 (amended): when no delivered
record has the panicking one-field shape, the run does not crash and the two
ledgers' record counts sum to the number of parsing rows. -/
theorem runRows_count (n : Nat) (rows : List (RowRead × RowOracle))
    (h : ∀ p ∈ rows, recLenOk p.1 = true) :
    (runRows n rows).1.length + (runRows n rows).2.1.length = countParsing n rows ∧
    (runRows n rows).2.2 = false := by
  induction rows generalizing n with
  | nil => simp [runRows, countParsing]
  | cons p rest ih =>
    obtain ⟨row, o⟩ := p
    have hrow : recLenOk row = true := h (row, o) (List.mem_cons_self _ _)
    have hrest : ∀ q ∈ rest, recLenOk q.1 = true :=
      fun q hq => h q (List.mem_cons_of_mem _ hq)
    obtain ⟨ih1, ih2⟩ := ih (n + 1) hrest
    have htrue : (if True then (1 : Nat) else 0) = 1 := if_pos trivial
    have hfalse : (if (false : Bool) = true then (1 : Nat) else 0) = 0 :=
      if_neg (by simp)
    rcases processRow_cases (n + 1) row o hrow with ⟨hp, r0, hw⟩ | ⟨hp, hs⟩
    · cases r0 with
      | succR e a nid =>
        simp only [runRows, countParsing, hw, hp, List.length_cons, htrue]
        exact ⟨by omega, ih2⟩
      | failR e a nid stg m =>
        simp only [runRows, countParsing, hw, hp, List.length_cons, htrue]
        exact ⟨by omega, ih2⟩
    · simp only [runRows, countParsing, hs, hp, hfalse]
      exact ⟨by omega, ih2⟩

/-- No call made by `CreateAndPublishAssetFromFile` touches the old asset,
whatever the backend does. -/
theorem create_calls_not_mutation (asset : Asset) (filePath locale0 : String)
    (o : RowOracle) (c : Call)
    (hc : c ∈ (CreateAndPublishAssetFromFile asset filePath locale0 o).2) :
    isOldMutation c = false := by
  simp only [CreateAndPublishAssetFromFile] at hc
  split at hc
  · simp at hc; subst hc; rfl
  · split at hc
    · split at hc
      · split at hc
        · simp at hc
          rcases hc with hc | hc <;> (subst hc; rfl)
        · rename_i cst cbody heqc
          split at hc
          · split at hc
            · split at hc
              · simp at hc
                rcases hc with hc | hc | hc <;> (subst hc; rfl)
              · split at hc
                · rename_i latestVersion pcalls hpoll
                  have hp := pollLoop_calls_not_mutation o.pollResp
                    (strOfD (jPath cbody ["sys", "id"])) (localeOrDefault locale0) 60 0 c
                  rw [hpoll] at hp
                  split at hc
                  · simp at hc
                    rcases hc with hc | hc | hc | hc | hc
                    · subst hc; rfl
                    · subst hc; rfl
                    · subst hc; rfl
                    · exact hp hc
                    · subst hc; rfl
                  · split at hc <;>
                      (simp at hc
                       rcases hc with hc | hc | hc | hc | hc
                       · subst hc; rfl
                       · subst hc; rfl
                       · subst hc; rfl
                       · exact hp hc
                       · subst hc; rfl)
                · rename_i pst pmsg pcalls hpoll
                  have hp := pollLoop_calls_not_mutation o.pollResp
                    (strOfD (jPath cbody ["sys", "id"])) (localeOrDefault locale0) 60 0 c
                  rw [hpoll] at hp
                  simp at hc
                  rcases hc with hc | hc | hc | hc
                  · subst hc; rfl
                  · subst hc; rfl
                  · subst hc; rfl
                  · exact hp hc
                · rename_i pcalls hpoll
                  have hp := pollLoop_calls_not_mutation o.pollResp
                    (strOfD (jPath cbody ["sys", "id"])) (localeOrDefault locale0) 60 0 c
                  rw [hpoll] at hp
                  simp at hc
                  rcases hc with hc | hc | hc | hc
                  · subst hc; rfl
                  · subst hc; rfl
                  · subst hc; rfl
                  · exact hp hc
            · simp at hc
              rcases hc with hc | hc <;> (subst hc; rfl)
          · simp at hc
            rcases hc with hc | hc <;> (subst hc; rfl)
      · simp at hc; subst hc; rfl
    · simp at hc; subst hc; rfl

/-- The only call `DownloadAssetFile` can make is the download GET. -/
theorem download_calls_not_mutation (asset : Asset) (destDir : String)
    (r : HttpResult) (c : Call)
    (hc : c ∈ (DownloadAssetFile asset destDir r).2.2) : isOldMutation c = false := by
  simp only [DownloadAssetFile] at hc
  split at hc
  · simp at hc
  · split at hc
    · simp at hc; subst hc; rfl
    · split at hc <;> (simp at hc; subst hc; rfl)

/-- Packaging of the ordering conclusion of C1: a trace of the shape
"prefix, new-asset publish, tail" with a mutation-free prefix. -/
theorem order_helper (cs cDL cs0 tail : List Call) (nid : String) (lv : Int)
    (hcs : cs = cDL ++ (cs0 ++ [Call.publishAssetC nid lv]) ++ tail)
    (hA : ∀ c ∈ cDL, isOldMutation c = false)
    (hB : ∀ c ∈ cs0, isOldMutation c = false) :
    ∃ A B nid2 lv2, cs = A ++ Call.publishAssetC nid2 lv2 :: B ∧
      ∀ c2 ∈ A, isOldMutation c2 = false := by
  refine ⟨cDL ++ cs0, tail, nid, lv, ?_, ?_⟩
  · rw [hcs]
    simp
  · intro c2 hc2
    rcases List.mem_append.mp hc2 with hm | hm
    · exact hA c2 hm
    · exact hB c2 hm

/-- Inversion for C2: a success record can only come out of the validation
step, with a successful re-fetch whose linked asset equals the recorded new
asset id (and the record's entry/old-asset columns are the row's inputs). -/
theorem replaceRow_succ_inv (eid aid : String) (o : RowOracle) (e a n : String)
    (h : (replaceRow eid aid o).1 = LedgerRec.succR e a n) :
    e = eid ∧ a = aid ∧
    ∃ ve, (FetchEntry o.validateResp).1 = Except.ok ve ∧ ve.assetID = n := by
  simp only [replaceRow] at h
  split at h
  · simp at h
  · split at h
    · simp at h
    · split at h
      · split at h
        · simp at h
        · split at h
          · split at h
            · simp at h
            · split at h
              · simp at h
              · split at h
                · simp at h
                · split at h
                  · split at h
                    · simp at h
                    · split at h
                      · simp at h
                      · simp only [validateAssetReplacement] at h
                        split at h
                        · simp at h
                        · rename_i ve hve
                          split at h
                          · rename_i hmatch
                            simp only [LedgerRec.succR.injEq] at h
                            obtain ⟨h1, h2, h3⟩ := h
                            exact ⟨h1.symm, h2.symm, ve, hve, hmatch.trans h3⟩
                          · simp at h
                  · simp at h
          · simp at h
      · simp at h

/-- Inversion for C1: a failure record at stage `UNPUBLISH_OLD` or later can
only arise after the create step returned without error, and its
`new_asset_id` column is exactly the `sys.id` of the create-asset response. -/
theorem replaceRow_lateFail_inv (eid aid : String) (o : RowOracle)
    (e a n : String) (stg : Stage) (m : String)
    (h : (replaceRow eid aid o).1 = LedgerRec.failR e a n stg m)
    (hlate : lateStage stg = true) :
    ∃ cst cbody, o.createResp = HttpResult.resp cst cbody ∧
      n = strOfD (jPath cbody ["sys", "id"]) := by
  simp only [replaceRow] at h
  split at h
  · simp only [LedgerRec.failR.injEq] at h
    obtain ⟨_, _, _, h4, _⟩ := h
    rw [← h4] at hlate
    simp [lateStage] at hlate
  · split at h
    · simp only [LedgerRec.failR.injEq] at h
      obtain ⟨_, _, _, h4, _⟩ := h
      rw [← h4] at hlate
      simp [lateStage] at hlate
    · split at h
      · split at h
        · simp only [LedgerRec.failR.injEq] at h
          obtain ⟨_, _, _, h4, _⟩ := h
          rw [← h4] at hlate
          simp [lateStage] at hlate
        · split at h
          · split at h
            · simp only [LedgerRec.failR.injEq] at h
              obtain ⟨_, _, _, h4, _⟩ := h
              rw [← h4] at hlate
              simp [lateStage] at hlate
            · rename_i nid st2 ccalls hcreate
              obtain ⟨⟨cst, cbody, hresp, hnid⟩, _⟩ :=
                create_ok_shape _ _ _ _ _ _ _ hcreate
              split at h
              · simp only [LedgerRec.failR.injEq] at h
                obtain ⟨_, _, h3, _, _⟩ := h
                refine ⟨cst, cbody, hresp, ?_⟩
                rw [← h3]
                exact hnid
              · split at h
                · simp only [LedgerRec.failR.injEq] at h
                  obtain ⟨_, _, h3, _, _⟩ := h
                  refine ⟨cst, cbody, hresp, ?_⟩
                  rw [← h3]
                  exact hnid
                · split at h
                  · split at h
                    · simp only [LedgerRec.failR.injEq] at h
                      obtain ⟨_, _, h3, _, _⟩ := h
                      refine ⟨cst, cbody, hresp, ?_⟩
                      rw [← h3]
                      exact hnid
                    · split at h
                      · simp only [LedgerRec.failR.injEq] at h
                        obtain ⟨_, _, h3, _, _⟩ := h
                        refine ⟨cst, cbody, hresp, ?_⟩
                        rw [← h3]
                        exact hnid
                      · simp only [validateAssetReplacement] at h
                        split at h
                        · simp only [LedgerRec.failR.injEq] at h
                          obtain ⟨_, _, h3, _, _⟩ := h
                          refine ⟨cst, cbody, hresp, ?_⟩
                          rw [← h3]
                          exact hnid
                        · split at h
                          · simp at h
                          · simp only [LedgerRec.failR.injEq] at h
                            obtain ⟨_, _, h3, _, _⟩ := h
                            refine ⟨cst, cbody, hresp, ?_⟩
                            rw [← h3]
                            exact hnid
                  · simp only [LedgerRec.failR.injEq] at h
                    obtain ⟨_, _, _, h4, _⟩ := h
                    rw [← h4] at hlate
                    simp [lateStage] at hlate
          · simp only [LedgerRec.failR.injEq] at h
            obtain ⟨_, _, _, h4, _⟩ := h
            rw [← h4] at hlate
            simp [lateStage] at hlate
      · simp only [LedgerRec.failR.injEq] at h
        obtain ⟨_, _, _, h4, _⟩ := h
        rw [← h4] at hlate
        simp [lateStage] at hlate

/-- From a mutation-free family and a claimed mutating member, a
contradiction. -/
theorem mut_notin (cs : List Call) (hall : ∀ c ∈ cs, isOldMutation c = false)
    (hmut : ∃ c ∈ cs, isOldMutation c = true) : False := by
  obtain ⟨c, hc, hm⟩ := hmut
  rw [hall c hc] at hm
  exact Bool.noConfusion hm

/-- Ordering half of C1: whenever the row's trace contains a call touching
the old asset, the trace splits as "prefix, publish of the new asset, tail"
with a mutation-free prefix — the new asset is published before the old one
is touched. -/
theorem replaceRow_calls_order (eid aid : String) (o : RowOracle)
    (hmut : ∃ c ∈ (replaceRow eid aid o).2.2, isOldMutation c = true) :
    ∃ A B nid lv, (replaceRow eid aid o).2.2 = A ++ Call.publishAssetC nid lv :: B ∧
      ∀ c2 ∈ A, isOldMutation c2 = false := by
  rcases hrr : replaceRow eid aid o with ⟨r0, w, cs⟩
  rw [hrr] at hmut
  simp only at hmut ⊢
  simp only [replaceRow] at hrr
  split at hrr
  · simp only [Prod.mk.injEq] at hrr
    obtain ⟨-, -, hcs⟩ := hrr
    subst hcs
    exact absurd hmut (by
      intro hm
      refine mut_notin _ ?_ hm
      intro c hc
      simp at hc
      subst hc
      rfl)
  · split at hrr
    · simp only [Prod.mk.injEq] at hrr
      obtain ⟨-, -, hcs⟩ := hrr
      subst hcs
      exact absurd hmut (by
        intro hm
        refine mut_notin _ ?_ hm
        intro c hc
        simp at hc
        rcases hc with hc | hc <;> (subst hc; rfl))
    · split at hrr
      · split at hrr
        · rename_i derr dst dcalls hdl
          simp only [Prod.mk.injEq] at hrr
          obtain ⟨-, -, hcs⟩ := hrr
          subst hcs
          exact absurd hmut (by
            intro hm
            refine mut_notin _ ?_ hm
            intro c hc
            simp at hc
            rcases hc with hc | hc | hc
            · subst hc; rfl
            · subst hc; rfl
            · exact download_calls_not_mutation _ _ _ c (by rw [hdl]; exact hc))
        · rename_i savedPath dst dcalls hdl
          split at hrr
          · split at hrr
            · rename_i nid st2 cerr ccalls hcre
              simp only [Prod.mk.injEq] at hrr
              obtain ⟨-, -, hcs⟩ := hrr
              subst hcs
              exact absurd hmut (by
                intro hm
                refine mut_notin _ ?_ hm
                intro c hc
                simp at hc
                rcases hc with hc | hc | hc | hc
                · subst hc; rfl
                · subst hc; rfl
                · exact download_calls_not_mutation _ _ _ c (by rw [hdl]; exact hc)
                · exact create_calls_not_mutation _ _ _ _ c (by rw [hcre]; exact hc))
            · rename_i nid st2 ccalls hcre
              obtain ⟨-, cs0, lv, hcsplit, hcs0⟩ := create_ok_shape _ _ _ _ _ _ _ hcre
              have hA : ∀ c ∈ ([Call.fetchEntryC eid] ++ [Call.fetchAssetC aid] ++ dcalls)
                  ++ cs0, isOldMutation c = false := by
                intro c hc
                simp at hc
                rcases hc with hc | hc | hc | hc
                · subst hc; rfl
                · subst hc; rfl
                · exact download_calls_not_mutation _ _ _ c (by rw [hdl]; exact hc)
                · exact hcs0 c hc
              have hAmem : ∀ tail cs2,
                  cs2 = ([Call.fetchEntryC eid] ++ [Call.fetchAssetC aid] ++ dcalls)
                    ++ (cs0 ++ [Call.publishAssetC nid lv]) ++ tail →
                  ∃ A B nid2 lv2, cs2 = A ++ Call.publishAssetC nid2 lv2 :: B ∧
                    ∀ c2 ∈ A, isOldMutation c2 = false := by
                intro tail cs2 hcs2
                refine order_helper cs2 _ cs0 tail nid lv hcs2 ?_ hcs0
                intro c hc
                exact hA c (by simpa using List.mem_append_left cs0 hc)
              split at hrr
              · rename_i ust uerr ucalls hup
                simp only [Prod.mk.injEq] at hrr
                obtain ⟨-, -, hcs⟩ := hrr
                subst hcs
                refine hAmem ucalls _ ?_
                simp [hcsplit]
              · rename_i ust ucalls hup
                split at hrr
                · rename_i ast aerr acalls har
                  simp only [Prod.mk.injEq] at hrr
                  obtain ⟨-, -, hcs⟩ := hrr
                  subst hcs
                  refine hAmem (ucalls ++ acalls) _ ?_
                  simp [hcsplit]
                · rename_i ast acalls har
                  split at hrr
                  · split at hrr
                    · rename_i pv pst perr pcalls hpt
                      simp only [Prod.mk.injEq] at hrr
                      obtain ⟨-, -, hcs⟩ := hrr
                      subst hcs
                      refine hAmem (ucalls ++ acalls ++ pcalls) _ ?_
                      simp [hcsplit]
                    · rename_i newVersion pst pcalls hpt
                      split at hrr
                      · rename_i bst berr pubcalls hpub
                        simp only [Prod.mk.injEq] at hrr
                        obtain ⟨-, -, hcs⟩ := hrr
                        subst hcs
                        refine hAmem (ucalls ++ acalls ++ pcalls ++ pubcalls) _ ?_
                        simp [hcsplit]
                      · rename_i bst pubcalls hpub
                        simp only [Prod.mk.injEq] at hrr
                        obtain ⟨-, -, hcs⟩ := hrr
                        subst hcs
                        refine hAmem (ucalls ++ acalls ++ pcalls ++ pubcalls ++
                          (validateAssetReplacement eid nid aid o.validateResp).2.2) _ ?_
                        simp [hcsplit]
                  · simp only [Prod.mk.injEq] at hrr
                    obtain ⟨-, -, hcs⟩ := hrr
                    subst hcs
                    refine hAmem (ucalls ++ acalls) _ ?_
                    rw [hcsplit]
                    simp
          · simp only [Prod.mk.injEq] at hrr
            obtain ⟨-, -, hcs⟩ := hrr
            subst hcs
            exact absurd hmut (by
              intro hm
              refine mut_notin _ ?_ hm
              intro c hc
              simp at hc
              rcases hc with hc | hc | hc
              · subst hc; rfl
              · subst hc; rfl
              · exact download_calls_not_mutation _ _ _ c (by rw [hdl]; exact hc))
      · simp only [Prod.mk.injEq] at hrr
        obtain ⟨-, -, hcs⟩ := hrr
        subst hcs
        exact absurd hmut (by
          intro hm
          refine mut_notin _ ?_ hm
          intro c hc
          simp at hc
          rcases hc with hc | hc <;> (subst hc; rfl))

/-- A poll response that decodes but shows no file URL yet (the shape that
keeps the poll loop waiting). -/
def pollNoUrl (locale : String) (r : HttpResult) : Prop :=
  ∃ st body, r = HttpResult.resp st body ∧ is2xx st = true ∧
    checkJson false pollSchema body = true ∧ pollHasURL body locale = false

/-- If no poll response ever shows a file URL, the loop runs out of
attempts. -/
theorem pollLoop_exhausts (pollResp : Nat → HttpResult) (nid locale : String)
    (h : ∀ i, pollNoUrl locale (pollResp i)) :
    ∀ rem i, (pollLoop pollResp nid locale rem i).1 = PollRes.exhausted := by
  intro rem
  induction rem with
  | zero => intro i; rfl
  | succ n ih =>
    intro i
    obtain ⟨st, body, hr, h2, h3, h4⟩ := h i
    simp only [pollLoop, hr, h2, h3, h4, if_true, if_false]
    exact ih (i + 1)

/-- With upload, create and process succeeding but the poll cap exhausted,
`CreateAndPublishAssetFromFile` returns the created id together with the
processing-timeout error (Go asset.go line 397). -/
theorem create_timeout (asset : Asset) (filePath locale0 : String) (o : RowOracle)
    (ust cst : Nat) (ubody cbody : Json)
    (hu : o.uploadResp = HttpResult.resp ust ubody) (hu2 : is2xx ust = true)
    (hu3 : checkJson false sysIdSchema ubody = true)
    (hc : o.createResp = HttpResult.resp cst cbody) (hc2 : is2xx cst = true)
    (hc3 : checkJson false sysIdSchema cbody = true)
    (pst : Nat) (pbody : Json) (hp : o.processResp = HttpResult.resp pst pbody)
    (hpoll : ∀ i, pollNoUrl (localeOrDefault locale0) (o.pollResp i)) :
    (CreateAndPublishAssetFromFile asset filePath locale0 o).1 =
      (strOfD (jPath cbody ["sys", "id"]), 0,
        some "asset processing did not complete: file URL missing") := by
  have hex := pollLoop_exhausts o.pollResp (strOfD (jPath cbody ["sys", "id"]))
    (localeOrDefault locale0) hpoll 60 0
  rcases hpl : pollLoop o.pollResp (strOfD (jPath cbody ["sys", "id"]))
      (localeOrDefault locale0) 60 0 with ⟨pres, pcalls⟩
  rw [hpl] at hex
  simp only at hex
  subst hex
  simp only [CreateAndPublishAssetFromFile, hu, hu2, hu3, hc, hc2, hc3, hp, hpl,
    if_true]

/-- A successful download returns a path inside the destination directory,
in particular a non-empty one. -/
theorem download_ok_nonempty (asset : Asset) (r : HttpResult) (p : String)
    (h : (DownloadAssetFile asset "downloaded" r).1 = Except.ok p) :
    (p != "") = true := by
  simp only [DownloadAssetFile] at h
  split at h
  · simp at h
  · split at h
    · simp at h
    · split at h
      · simp only [Except.ok.injEq] at h
        subst h
        simp [String.ext_iff]
      · simp at h

/-- A fetch-entry error terminates the row at once with the fetch-entry
failure record and no further calls. -/
theorem replaceRow_fetchEntry_error (eid aid : String) (o : RowOracle) (msg : String)
    (h : (FetchEntry o.fetchEntryResp).1 = Except.error msg) :
    replaceRow eid aid o =
      (LedgerRec.failR eid aid "" Stage.fetchEntryS msg, 1, [Call.fetchEntryC eid]) := by
  simp only [replaceRow, h]

/-- Like `goodOracle`, but the unpublish of the old asset is rejected with a
409 (the shape of a version conflict). -/
def unpubFailOracle : RowOracle :=
  { goodOracle with unpublishResp := .resp 409 .null }

/-- A backend whose entry response carries a top-level field the modeled
schema does not declare. -/
def c10Oracle : RowOracle :=
  { downOracle with fetchEntryResp := .resp 200 (Json.obj [("zzz", Json.null)]) }

/-- Input rows whose first delivered record has exactly one field, followed
by a well-formed row: the shape on which the run panics. -/
def c3Rows : List (RowRead × RowOracle) :=
  [(RowRead.record ["a"], downOracle), (RowRead.record ["e1", "a1"], downOracle)]

/-- Input rows without one-field records: a header row, a fully succeeding
row, and a read error. -/
def c3GoodRows : List (RowRead × RowOracle) :=
  [(RowRead.record ["entry_id", "asset_id"], downOracle),
   (RowRead.record ["E1", "A1"], goodOracle),
   (RowRead.readErr, downOracle)]

/-! ## The claims -/

/-- C1 (counterexample): when the 2xx create-asset response carries no
`sys.id`, the created id is the empty string, and a subsequent unpublish
failure is recorded at stage `UNPUBLISH_OLD` with an EMPTY `new_asset_id` —
refuting the claim that a failure ledger record at `UNPUBLISH_OLD` or later
always carries a non-empty `new_asset_id`. -/
theorem c1_counterexample :
    (replaceRow "E1" "A1" emptyIdOracle).1 =
      LedgerRec.failR "E1" "A1" "" Stage.unpublishS
        "unpublish asset failed with status 500" ∧
    lateStage Stage.unpublishS = true := by
  exact ⟨by decide, by decide⟩

/-- C1 (amended): a failure ledger record at stage `UNPUBLISH_OLD` or later
carries, in `new_asset_id`, the `sys.id` of the create-asset response — a
non-empty value whenever the backend's create response supplied one — and
whenever the trace contains any call touching the old asset, the trace
splits as "mutation-free prefix, publish of the new asset, tail": the new
asset is created, confirmed and published before the old asset is touched. -/
theorem c1_late_failure_new_id (eid aid : String) (o : RowOracle)
    (hid : ∀ st b, o.createResp = HttpResult.resp st b →
      strOfD (jPath b ["sys", "id"]) ≠ "") :
    (∀ e a n stg m, (replaceRow eid aid o).1 = LedgerRec.failR e a n stg m →
      lateStage stg = true → n ≠ "") ∧
    ((∃ c ∈ (replaceRow eid aid o).2.2, isOldMutation c = true) →
      ∃ A B nid lv, (replaceRow eid aid o).2.2 = A ++ Call.publishAssetC nid lv :: B ∧
        ∀ c2 ∈ A, isOldMutation c2 = false) := by
  constructor
  · intro e a n stg m h hl
    obtain ⟨cst, cbody, hresp, hn⟩ := replaceRow_lateFail_inv eid aid o e a n stg m h hl
    rw [hn]
    exact hid cst cbody hresp
  · intro hmut
    exact replaceRow_calls_order eid aid o hmut

/-- C1 (witness): instantiating the amended claim on a run whose unpublish
fails with a 409 after the new asset `N1` was created and published. -/
theorem c1_witness : ("N1" : String) ≠ "" :=
  (c1_late_failure_new_id "E1" "A1" unpubFailOracle
      (by intro st b hb; cases hb; decide)).1
    "E1" "A1" "N1" Stage.unpublishS "unpublish asset failed with status 409"
    (by decide) (by decide)

/-- C2: a success record is written only when the post-publish re-fetch of
the entry succeeds and its linked asset equals the `new_asset_id` of that
same record; at the validation step a matching re-fetch writes the success
record, while a fetch failure or a mismatch writes a failure record. -/
theorem c2_validation_iff (eid aid : String) (o : RowOracle) :
    (∀ e a n, (replaceRow eid aid o).1 = LedgerRec.succR e a n →
      e = eid ∧ a = aid ∧
      ∃ ve, (FetchEntry o.validateResp).1 = Except.ok ve ∧ ve.assetID = n) ∧
    (∀ entryID newAssetID oldAssetID r ve,
      (FetchEntry r).1 = Except.ok ve → ve.assetID = newAssetID →
      (validateAssetReplacement entryID newAssetID oldAssetID r).1 =
        LedgerRec.succR entryID oldAssetID newAssetID) ∧
    (∀ entryID newAssetID oldAssetID r,
      ((∃ m, (FetchEntry r).1 = Except.error m) ∨
        (∃ ve, (FetchEntry r).1 = Except.ok ve ∧ ve.assetID ≠ newAssetID)) →
      ∃ stg msg, (validateAssetReplacement entryID newAssetID oldAssetID r).1 =
        LedgerRec.failR entryID oldAssetID newAssetID stg msg) := by
  refine ⟨fun e a n h => replaceRow_succ_inv eid aid o e a n h, ?_, ?_⟩
  · intro entryID newAssetID oldAssetID r ve hok hmatch
    simp only [validateAssetReplacement, hok, if_pos hmatch]
  · intro entryID newAssetID oldAssetID r hbad
    rcases hbad with ⟨m, herr⟩ | ⟨ve, hok, hne⟩
    · exact ⟨Stage.validateFetchS, m, by simp only [validateAssetReplacement, herr]⟩
    · refine ⟨Stage.validateMismatchS,
        "validation failed: expected asset " ++ newAssetID ++ " but found "
          ++ ve.assetID, ?_⟩
      simp only [validateAssetReplacement, hok, if_neg hne]

/-- C2 (witness): on the fully succeeding run the success record `E1, A1,
N1` is only written because the re-fetch shows the entry linked to `N1`. -/
theorem c2_witness :
    ∃ ve, (FetchEntry goodOracle.validateResp).1 = Except.ok ve ∧ ve.assetID = "N1" :=
  (((c2_validation_iff "E1" "A1" goodOracle).1) "E1" "A1" "N1" (by decide)).2.2

/-- C3 (counterexample): on an input whose first record has one field, the
run panics at `record[1]`; the later well-formed row `e1, a1` parses yet no
ledger record is ever written for it, refuting the claim as stated. -/
theorem c3_counterexample :
    (runRows 0 c3Rows).1.length + (runRows 0 c3Rows).2.1.length ≠
      countParsing 0 c3Rows ∧
    (runRows 0 c3Rows).2.2 = true := by
  exact ⟨by decide, by decide⟩

/-- C3 (amended): provided no delivered record has exactly one field (a
one-field record instead halts the run with an index-out-of-range panic),
every row that parses appends exactly one record to exactly one of the two
ledgers and every other row appends none: the run does not crash and the
ledgers' record counts sum to the number of parsing rows. -/
theorem c3_ledger_accounting (n : Nat) (rows : List (RowRead × RowOracle))
    (h : ∀ p ∈ rows, recLenOk p.1 = true) :
    (runRows n rows).1.length + (runRows n rows).2.1.length = countParsing n rows ∧
    (runRows n rows).2.2 = false :=
  runRows_count n rows h

/-- C3 (witness): a header row, a succeeding row and a read error yield one
ledger record in total, matching the single parsing row, with no crash. -/
theorem c3_witness :
    (runRows 0 c3GoodRows).1.length + (runRows 0 c3GoodRows).2.1.length =
      countParsing 0 c3GoodRows ∧
    (runRows 0 c3GoodRows).2.2 = false :=
  c3_ledger_accounting 0 c3GoodRows (by decide)

/-- C4 (counterexample): when the 60-attempt poll cap is exhausted, the
failure record carries the CREATED asset id `N1` — not an empty
`new_asset_id` as the claim states. -/
theorem c4_counterexample :
    (replaceRow "E1" "A1" timeoutOracle).1 =
      LedgerRec.failR "E1" "A1" "N1" Stage.createS
        "asset processing did not complete: file URL missing" ∧
    ("N1" : String) ≠ "" := by
  exact ⟨by decide, by decide⟩

/-- C4 (amended): when upload, create and process succeed but no poll
response within the 60-attempt cap shows a file URL, the row terminates with
a processing-timeout failure record whose `new_asset_id` is the id carried
by the create response (empty only if the backend supplied none), and no
call touching the old asset — unpublish or archive — is ever attempted. -/
theorem c4_processing_timeout (eid aid : String) (o : RowOracle) (entry : Entry)
    (asset : Asset) (savedPath : String) (ust cst : Nat) (ubody cbody : Json)
    (pst : Nat) (pbody : Json)
    (hfe : (FetchEntry o.fetchEntryResp).1 = Except.ok entry)
    (hfa : (FetchAsset o.fetchAssetResp).1 = Except.ok asset)
    (hurl : (strTrim asset.fileURL != "") = true)
    (hdl : (DownloadAssetFile asset "downloaded" o.downloadResp).1 = Except.ok savedPath)
    (hu : o.uploadResp = HttpResult.resp ust ubody) (hu2 : is2xx ust = true)
    (hu3 : checkJson false sysIdSchema ubody = true)
    (hc : o.createResp = HttpResult.resp cst cbody) (hc2 : is2xx cst = true)
    (hc3 : checkJson false sysIdSchema cbody = true)
    (hp : o.processResp = HttpResult.resp pst pbody)
    (hpoll : ∀ i, pollNoUrl "en-US" (o.pollResp i)) :
    (replaceRow eid aid o).1 =
      LedgerRec.failR eid aid (strOfD (jPath cbody ["sys", "id"])) Stage.createS
        "asset processing did not complete: file URL missing" ∧
    noOldAssetMutation (replaceRow eid aid o).2.2 = true := by
  have hloc : localeOrDefault "en-US" = "en-US" := by decide
  have hct := create_timeout asset savedPath "en-US" o ust cst ubody cbody hu hu2 hu3
    hc hc2 hc3 pst pbody hp (by rw [hloc]; exact hpoll)
  rcases hdfull : DownloadAssetFile asset "downloaded" o.downloadResp with ⟨dres, dst, dcalls⟩
  have hdres : dres = Except.ok savedPath := by
    rw [hdfull] at hdl
    exact hdl
  subst hdres
  have hsp : (savedPath != "") = true :=
    download_ok_nonempty asset o.downloadResp savedPath (by rw [hdfull])
  rcases hcfull : CreateAndPublishAssetFromFile asset savedPath "en-US" o
    with ⟨⟨nid, cst0, copt⟩, ccalls⟩
  have htriple : (nid, cst0, copt) = (strOfD (jPath cbody ["sys", "id"]), 0,
      some "asset processing did not complete: file URL missing") := by
    rw [hcfull] at hct
    exact hct
  simp only [Prod.mk.injEq] at htriple
  obtain ⟨hnid, -, hcopt⟩ := htriple
  subst hnid
  subst hcopt
  constructor
  · simp only [replaceRow, hfe, hfa, hurl, hdfull, hsp, hcfull, if_true]
  · simp only [replaceRow, hfe, hfa, hurl, hdfull, hsp, hcfull, if_true]
    unfold noOldAssetMutation
    rw [List.all_eq_true]
    intro c hcmem
    simp at hcmem
    rcases hcmem with hc1 | hc1 | hc1 | hc1
    · subst hc1; rfl
    · subst hc1; rfl
    · have := download_calls_not_mutation asset "downloaded" o.downloadResp c
        (by rw [hdfull]; exact hc1)
      simp [this]
    · have := create_calls_not_mutation asset savedPath "en-US" o c
        (by rw [hcfull]; exact hc1)
      simp [this]

/-- C4 (witness): the amended claim instantiated on the concrete
timed-out run. -/
theorem c4_witness :
    (replaceRow "E1" "A1" timeoutOracle).1 =
      LedgerRec.failR "E1" "A1"
        (strOfD (jPath (Json.obj [("sys", Json.obj [("id", Json.str "N1")])])
          ["sys", "id"]))
        Stage.createS "asset processing did not complete: file URL missing" ∧
    noOldAssetMutation (replaceRow "E1" "A1" timeoutOracle).2.2 = true :=
  c4_processing_timeout "E1" "A1" timeoutOracle
    (extractEntry (entryBodyOk "A1")) (extractAsset assetBodyOk)
    "downloaded/file_20230101_120000.png" 201 201
    (Json.obj [("sys", Json.obj [("id", Json.str "U1")])])
    (Json.obj [("sys", Json.obj [("id", Json.str "N1")])]) 204 Json.null
    rfl rfl (by decide) rfl rfl (by decide) (by decide)
    rfl (by decide) (by decide) rfl
    (fun i => ⟨200, pollBodyPending, rfl, by decide, by decide, by decide⟩)

/-- C5: the archive call reuses the asset version fetched BEFORE the
unpublish as its optimistic-concurrency token. On the fully succeeding run
whose asset was fetched at version 5, both the unpublish and the archive PUT
send version 5, even though the archive step's own re-fetch reports the
current version as 6 and no call ever sends 6 — refuting the claim that the
version is re-read after every preceding mutating call. -/
theorem c5_stale_archive_version :
    (extractAsset assetBodyOk).version = 5 ∧
    Call.unpublishAssetC "A1" 5 ∈ (replaceRow "E1" "A1" goodOracle).2.2 ∧
    Call.archivePutC "A1" 5 ∈ (replaceRow "E1" "A1" goodOracle).2.2 ∧
    intOfD (jPath (Json.obj [("sys", Json.obj [("version", Json.num 6)])])
      ["sys", "version"]) = 6 ∧
    Call.archivePutC "A1" 6 ∉ (replaceRow "E1" "A1" goodOracle).2.2 := by
  exact ⟨by decide, by decide, by decide, by decide, by decide⟩

/-- C6: the strip operation is NOT the inverse of the download-time
suffixing for names with an extension: `file.png` is suffixed to
`file_20230101_120000.png`, which the strip returns unchanged (the
`HasSuffix` test looks at the very end of the name, where the extension
sits), contradicting the function's own doc comment
`filename_YYYYMMDD_HHMMSS.ext -> filename.ext`. For an extensionless name
the round trip does restore the original. -/
theorem c6_strip_not_inverse :
    addTimestampToFilename "file.png" "20230101_120000" =
      "file_20230101_120000.png" ∧
    removeTimestampFromFilename "file_20230101_120000.png" "20230101_120000" =
      "file_20230101_120000.png" ∧
    removeTimestampFromFilename (addTimestampToFilename "file" "20230101_120000")
      "20230101_120000" = "file" := by
  exact ⟨by decide, by decide, by decide⟩

/-- Modelled from the spec: the URL normalization exactly as claim C7 states
it — a protocol-relative URL gets the https scheme prepended, an
insecure-scheme URL (case-insensitive) has its scheme replaced by https,
and every other URL is returned unchanged. -/
def ensureHTTPS_claimC7 (u : String) : String :=
  if strStarts u "//" then "https:" ++ u
  else if strStarts (strToLower u) "http://" then "https://" ++ strDrop u 7
  else u

/-- C7 (counterexample): on `HTTP://example.com` the code prepends
`https://` WITHOUT removing the uppercase scheme (`strings.TrimPrefix` is
case-sensitive), yielding `https://HTTP://example.com` where the claim
requires `https://example.com`. -/
theorem c7_counterexample :
    ensureHTTPS "HTTP://example.com" = "https://HTTP://example.com" ∧
    ensureHTTPS_claimC7 "HTTP://example.com" = "https://example.com" ∧
    ensureHTTPS "HTTP://example.com" ≠ ensureHTTPS_claimC7 "HTTP://example.com" := by
  exact ⟨by decide, by decide, by decide⟩

/-- Modelled from the spec as amended: the normalization operates on the
whitespace-trimmed URL (so the pass-through case returns the trimmed form);
a protocol-relative URL gets `https:` prepended; an insecure-scheme URL has
its scheme stripped and replaced by `https://` only when the scheme is
exactly the lowercase `http://`, otherwise `https://` is prepended in front
of the original scheme. -/
def ensureHTTPS_amendedC7 (u : String) : String :=
  let s := strTrim u
  if strStarts s "//" then "https:" ++ s
  else if strStarts (strToLower s) "http://" then
    (if strStarts s "http://" then "https://" ++ strDrop s 7
     else "https://" ++ s)
  else s

/-- C7 (amended): `ensureHTTPS` coincides with the amended normalization on
every URL string. -/
theorem c7_ensure_https (u : String) : ensureHTTPS u = ensureHTTPS_amendedC7 u := by
  simp only [ensureHTTPS, ensureHTTPS_amendedC7, goTrimPre]
  by_cases h1 : strStarts (strTrim u) "//" = true
  · simp [h1]
  · by_cases h2 : strStarts (strToLower (strTrim u)) "http://" = true
    · by_cases h3 : strStarts (strTrim u) "http://" = true
      · simp [h1, h2, h3]
      · simp [h1, h2, h3]
    · simp [h1, h2]

/-- C8 (counterexample): a first row holding both literal header values is
skipped with NO ledger record and NO warning at all (`warns = 0`), refuting
the part of the claim that says a warning is emitted for it. -/
theorem c8_counterexample :
    processRow 1 (RowRead.record ["entry_id", "asset_id"]) downOracle =
      ⟨RowOut.skip, 0, []⟩ ∧
    (processRow 1 (RowRead.record ["entry_id", "asset_id"]) downOracle).warns = 0 := by
  exact ⟨by decide, by decide⟩

/-- C8 (amended): a first row with at least the two columns, both non-blank,
whose entry_id or asset_id column case-insensitively equals the header
literal, is skipped silently: no ledger record, no warning, no HTTP call. -/
theorem c8_header_skip_silent (fields : List String) (o : RowOracle)
    (hlen : 2 ≤ fields.length)
    (hb0 : ¬ rowField fields 0 = "") (hb1 : ¬ rowField fields 1 = "")
    (hh : eqFold (rowField fields 0) "entry_id" = true ∨
      eqFold (rowField fields 1) "asset_id" = true) :
    processRow 1 (RowRead.record fields) o = ⟨RowOut.skip, 0, []⟩ := by
  have h0 : ¬ fields.length = 0 := by omega
  have h1 : ¬ fields.length = 1 := by omega
  have hb : ¬ (rowField fields 0 = "" ∨ rowField fields 1 = "") := by tauto
  simp only [processRow, if_neg h0, if_neg h1, if_neg hb]
  rw [if_pos (show True ∧ _ from ⟨trivial, hh⟩)]

/-- C8 (witness): the amended claim instantiated on the literal header row. -/
theorem c8_witness :
    processRow 1 (RowRead.record ["entry_id", "asset_id"]) goodOracle =
      ⟨RowOut.skip, 0, []⟩ :=
  c8_header_skip_silent ["entry_id", "asset_id"] goodOracle (by decide) (by decide)
    (by decide) (by decide)

/-- C9: the loop guards only `len(record) == 0` before indexing `record[1]`,
so a one-field record passes the guard while the second-column access is out
of bounds; in the model the row panics (`crash`) and the whole run stops
with nothing written. -/
theorem c9_one_column_crash (fields : List String) (o : RowOracle)
    (h : fields.length = 1) :
    (fields ≠ [] ∧ ¬ 1 < fields.length) ∧
    processRow 1 (RowRead.record fields) o = ⟨RowOut.crash, 0, []⟩ ∧
    ∀ rest, runRows 0 ((RowRead.record fields, o) :: rest) = ([], [], true) := by
  have h0 : ¬ fields.length = 0 := by omega
  refine ⟨⟨?_, by omega⟩, ?_, ?_⟩
  · intro hnil
    rw [hnil] at h
    simp at h
  · simp only [processRow, if_neg h0, if_pos h]
  · intro rest
    simp only [runRows, processRow, if_neg h0, if_pos h]

/-- C9 (witness): the one-column record `["a"]` passes the non-empty guard,
crashes the row, and stops the run. -/
theorem c9_witness :
    processRow 1 (RowRead.record ["a"]) downOracle = ⟨RowOut.crash, 0, []⟩ ∧
    runRows 0 [(RowRead.record ["a"], downOracle)] = ([], [], true) :=
  ⟨(c9_one_column_crash ["a"] downOracle (by decide)).2.1,
   (c9_one_column_crash ["a"] downOracle (by decide)).2.2 []⟩

/-- C10: `FetchEntry` and `FetchAsset` decode with unknown JSON fields
disallowed: any 2xx body with a field the modeled schema does not declare
(at any struct position) yields a decode error instead of a parsed resource,
and a row whose entry fetch hits such a body lands in the failure ledger. -/
theorem c10_unknown_fields_rejected (status : Nat) (eBody aBody : Json)
    (hst : is2xx status = true)
    (he : hasAlienKey entrySchema eBody = true)
    (ha : hasAlienKey assetSchema aBody = true) :
    (∃ m, (FetchEntry (HttpResult.resp status eBody)).1 = Except.error m) ∧
    (∃ m, (FetchAsset (HttpResult.resp status aBody)).1 = Except.error m) ∧
    (∀ eid aid (o : RowOracle), o.fetchEntryResp = HttpResult.resp status eBody →
      replaceRow eid aid o =
        (LedgerRec.failR eid aid "" Stage.fetchEntryS "decode error", 1,
          [Call.fetchEntryC eid])) := by
  have hce := hasAlienKey_checkJson_false entrySchema eBody he
  have hca := hasAlienKey_checkJson_false assetSchema aBody ha
  refine ⟨⟨"decode error", ?_⟩, ⟨"decode error", ?_⟩, ?_⟩
  · simp [FetchEntry, hst, hce]
  · simp [FetchAsset, hst, hca]
  · intro eid aid o ho
    refine replaceRow_fetchEntry_error eid aid o "decode error" ?_
    rw [ho]
    simp [FetchEntry, hst, hce]

/-- C10 (witness): a top-level alien key on the entry body and a nested
alien key inside the asset's `fields` struct are both rejected, and the row
with the former lands in the failure ledger. -/
theorem c10_witness :
    (∃ m, (FetchEntry (HttpResult.resp 200 (Json.obj [("zzz", Json.null)]))).1 =
      Except.error m) ∧
    replaceRow "E1" "A1" c10Oracle =
      (LedgerRec.failR "E1" "A1" "" Stage.fetchEntryS "decode error", 1,
        [Call.fetchEntryC "E1"]) :=
  ⟨(c10_unknown_fields_rejected 200 (Json.obj [("zzz", Json.null)])
      (Json.obj [("fields", Json.obj [("extra", Json.null)])])
      (by decide) (by decide) (by decide)).1,
   (c10_unknown_fields_rejected 200 (Json.obj [("zzz", Json.null)])
      (Json.obj [("fields", Json.obj [("extra", Json.null)])])
      (by decide) (by decide) (by decide)).2.2 "E1" "A1" c10Oracle rfl⟩
